import Mathlib

/-!
# Abstruse server: worker registry entry, HTTP build trigger, repository listing

A shallow embedding of `internal/server/app/worker.go`, of
`BuildController.TriggerBuild` from `internal/server/controller/build.go`, and
of `DefaultProviderService.ReposList` from
`internal/server/service/provider.go`.

Conventions of the embedding.

* Go `int` is the 64-bit two's-complement integer: values are `Int`, and every
  arithmetic result or conversion is wrapped with `toInt64`. `int32(x)` is
  `toInt32`, `uint(x)` is `toUint64`.
* Go `error` values are strings (`Error`); `nil` is `none`.
* A method with a pointer receiver is a function from the state it can touch
  to the new state. The mutex `w.mu` is taken and released inside one call and
  carries no state of its own; calls of other goroutines that can land between
  two statements of `usageStats` are listed explicitly in the `Tick` the loop
  consumes.
* Collaborators that live outside these files (the gRPC client, the websocket
  hub, the scheduler, the etcd client, the JSON codec, the JWT helper) are
  either recorded as a log of the calls made to them or passed in as the
  answer they give.
* Logging (`w.logger`) has no effect on any state below and is left out.
-/

namespace Abstruse

/-! ## Machine integers -/

/-- Wrap an integer to the range of a signed 64-bit Go `int`. -/
def toInt64 (x : Int) : Int := (x + 2 ^ 63) % 2 ^ 64 - 2 ^ 63

/-- Wrap an integer to the range of a Go `int32`. -/
def toInt32 (x : Int) : Int := (x + 2 ^ 31) % 2 ^ 32 - 2 ^ 31

/-- Wrap an integer to the range of a Go `uint` (64 bits). -/
def toUint64 (x : Int) : Int := x % 2 ^ 64

/-- The values a Go `int` can hold. -/
def inInt64 (x : Int) : Prop := -(2 ^ 63) ≤ x ∧ x < 2 ^ 63

instance (x : Int) : Decidable (inInt64 x) := by
  unfold inInt64; exact inferInstance

/-- Go errors, by their message. -/
abbrev Error := String

/-! ## Data model (`core.HostInfo`, `core.Usage`, `Worker`) -/

/-- Instant of `time.Time`, as Unix seconds and nanoseconds. -/
structure Time where
  sec : Int
  nsec : Int
deriving DecidableEq, Repr

/-- The function `time.Unix(sec, nsec)`: nanoseconds outside `[0, 1e9)` are
carried into the seconds. -/
def timeUnix (sec nsec : Int) : Time :=
  ⟨sec + nsec / 1000000000, nsec % 1000000000⟩

/-- Protobuf `Timestamp` message. -/
structure PbTimestamp where
  seconds : Int
  nanos : Int
deriving DecidableEq, Repr

/-- The function `ptypes.Timestamp(ts)`, first result only (the caller
discards the validation error): a nil message is the Unix epoch. -/
def ptypesTimestamp : Option PbTimestamp → Time
  | none => timeUnix 0 0
  | some ts => timeUnix ts.seconds ts.nanos

/-- Modelled from the spec: the message returned by the worker's `HostInfo`
RPC (`pb.HostInfo`, declared outside these files). The fields are the fifteen
the spec lists for `HostInfo()`; numeric fields hold the value of whatever
integer type the message declares. -/
structure HostInfoReply where
  id : String
  addr : String
  hostname : String
  uptime : Int
  bootTime : Int
  procs : Int
  os : String
  platform : String
  platformFamily : String
  platformVersion : String
  kernelVersion : String
  kernelArch : String
  virtualizationSystem : String
  virtualizationRole : String
  maxConcurrency : Int
deriving DecidableEq, Repr

/-- Modelled from the spec: the record `core.HostInfo` (declared outside these
files). `hostInfo` fills it positionally with sixteen values, so it has
sixteen fields; the spec names fifteen of them, in this order, and the
remaining one (the fifteenth position, between `virtualization_role` and
`max_concurrency`) is called `extra` here. -/
structure HostInfo where
  id : String
  addr : String
  hostname : String
  uptime : Int
  bootTime : Int
  procs : Int
  os : String
  platform : String
  platformFamily : String
  platformVersion : String
  kernelVersion : String
  kernelArch : String
  virtualizationSystem : String
  virtualizationRole : String
  extra : String
  maxConcurrency : Int
deriving DecidableEq, Repr

/-- The zero value of `core.HostInfo`. -/
def HostInfo.zero : HostInfo :=
  ⟨"", "", "", 0, 0, 0, "", "", "", "", "", "", "", "", "", 0⟩

/-- One element of the stream `UsageStats` (`pb.UsageStats`): the getters
`GetCpu`, `GetMem`, `GetTimestamp`. The readings are only ever copied. -/
structure UsageStats where
  cpu : Int
  mem : Int
  timestamp : Option PbTimestamp
deriving DecidableEq, Repr

/-- The record `core.Usage` as `usageStats` fills it. -/
structure Usage where
  id : String
  addr : String
  cpu : Int
  mem : Int
  jobsMax : Int
  jobsRunning : Int
  timestamp : Time
deriving DecidableEq, Repr

/-- The data fields of `Worker` (`id`, `max`, `running`, `addr`, `host`,
`usage`). The fields `conn`, `cli` and `app` are in `Sys`. -/
structure Worker where
  id : String
  max : Int
  running : Int
  addr : String
  host : HostInfo
  usage : List Usage
deriving DecidableEq, Repr

/-- `Worker.ID`. -/
def Worker.ID (w : Worker) : String := w.id

/-- `Worker.Addr`. -/
def Worker.Addr (w : Worker) : String := w.addr

/-- `Worker.Host`. -/
def Worker.Host (w : Worker) : HostInfo := w.host

/-- `Worker.Usage`. -/
def Worker.Usage (w : Worker) : List Usage := w.usage

/-- `Worker.SetCapacity(n)`: under the mutex, `w.running = n`. -/
def Worker.SetCapacity (w : Worker) (n : Int) : Worker :=
  { w with running := n }

/-- `Worker.Capacity()`: under the mutex, `return int(w.max - w.running)`.
Returns the result together with the worker as the call leaves it. -/
def Worker.Capacity (w : Worker) : Int × Worker :=
  (toInt64 (w.max - w.running), w)

/-! ## The application around a worker (`App`, the gRPC client, the hub) -/

/-- Identity of a `*Worker` value: the registry and the scheduler hold
pointers, not copies. -/
abbrev Ptr := Nat

/-- The `map[string]interface{}` values handed to `ws.Broadcast`, one
constructor for each of the two shapes `worker.go` builds, and one for the
notice sent by `on_disconnect`. -/
inductive Payload where
  | workersAdd (id addr : String) (host : HostInfo) (usage : List Usage)
  | workersUsage (id addr : String) (cpu mem : Int) (jobsMax jobsRunning : Int)
      (timestamp : Time)
  | workersDelete (id : String)
deriving DecidableEq, Repr

/-- One call `ws.Broadcast(topic, payload)`. -/
structure Broadcast where
  topic : String
  payload : Payload
deriving DecidableEq, Repr

/-- The parts of `App` that `worker.go` touches. `workers` is the map
`app.workers`; the other three fields record, oldest first, the calls made to
the scheduler (`AddWorker`), the websocket hub (`Broadcast`) and the etcd
client (`Put`). -/
structure App where
  workers : List (String × Ptr)
  scheduler : List Ptr
  ws : List Broadcast
  client : List (String × String)
deriving DecidableEq, Repr

/-- Map assignment `m[k] = v`. -/
def mapSet (m : List (String × Ptr)) (k : String) (v : Ptr) : List (String × Ptr) :=
  (k, v) :: m.filter (fun e => e.1 != k)

/-- Map read `m[k]`. -/
def mapGet (m : List (String × Ptr)) (k : String) : Option Ptr :=
  m.lookup k

/-- Calls made on the worker's gRPC connection, client and stream. -/
inductive Call where
  | hostInfo
  | usageStats
  | recv
  | closeSend
  | connClose
deriving DecidableEq, Repr

/-- A worker at address `self`, the application it points to, and the log of
calls made on `w.cli`, `w.conn` and the stream, oldest first. -/
structure Sys where
  self : Ptr
  w : Worker
  app : App
  calls : List Call
deriving DecidableEq, Repr

/-- Call `ws.Broadcast`. -/
def Sys.broadcast (s : Sys) (topic : String) (p : Payload) : Sys :=
  { s with app := { s.app with ws := s.app.ws ++ [⟨topic, p⟩] } }

/-- Record a call on the connection. -/
def Sys.call (s : Sys) (c : Call) : Sys :=
  { s with calls := s.calls ++ [c] }

/-- Calls `SetCapacity(n)` made by other goroutines, in order. -/
def Sys.setCapacities (s : Sys) (ns : List Int) : Sys :=
  { s with w := ns.foldl Worker.SetCapacity s.w }

/-- `TLS` options read by `newWorker`. -/
structure Options where
  cert : String
  key : String
deriving DecidableEq, Repr

/-- `newWorker`: `loadKeyPair` is what `tls.LoadX509KeyPair` answers and `dial`
what `grpc.Dial` answers; `self` is the address of the new value. -/
def newWorker (addr id : String) (opts : Options) (app : App)
    (loadKeyPair dial : Except Error Unit) (self : Ptr) : Except Error Sys :=
  if opts.cert == "" || opts.key == "" then
    .error "certificate and key must be specified"
  else
    match loadKeyPair with
    | .error err => .error err
    | .ok _ =>
      match dial with
      | .error err => .error err
      | .ok _ =>
        .ok { self := self
              w := { id := id, max := 0, running := 0, addr := addr,
                     host := HostInfo.zero, usage := [] }
              app := app
              calls := [] }

/-- `Worker.hostInfo`: `reply` is what `w.cli.HostInfo` answers. On an error
the message is nil and every getter gives its zero value. The sixteen
positions are filled exactly as in the source. -/
def hostInfo (reply : Except Error HostInfoReply) (s : Sys) :
    HostInfo × Option Error × Sys :=
  let s := s.call .hostInfo
  match reply with
  | .error err => (HostInfo.zero, some err, s)
  | .ok info =>
    ({ id := info.id
       addr := info.addr
       hostname := info.hostname
       uptime := info.uptime
       bootTime := info.bootTime
       procs := info.procs
       os := info.os
       platform := info.platform
       platformFamily := info.platformFamily
       platformVersion := info.platformVersion
       kernelVersion := info.kernelVersion
       kernelArch := info.kernelArch
       virtualizationSystem := info.virtualizationSystem
       virtualizationRole := info.virtualizationSystem
       extra := info.hostname
       maxConcurrency := info.maxConcurrency }, none, s)

/-- `Worker.emitData`. -/
def emitData (s : Sys) : Sys :=
  s.broadcast "/subs/workers_add"
    (.workersAdd s.w.id s.w.Addr s.w.Host s.w.Usage)

/-- `Worker.emitUsage`; `now` is what `time.Now()` answers. -/
def emitUsage (now : Time) (s : Sys) : Sys :=
  if h : s.w.usage.length < 1 then s
  else
    let usage := s.w.usage.get ⟨s.w.usage.length - 1, by omega⟩
    s.broadcast "/subs/workers_usage"
      (.workersUsage s.w.id s.w.addr usage.cpu usage.mem s.w.max s.w.running now)

/-- One turn of the `for` loop in `usageStats`, seen from outside.
`before` are the `SetCapacity` calls of other goroutines while the loop waits
in `stream.Recv()`, `recv` is what `Recv` answers, `racing` are the
`SetCapacity` calls that land after the loop has read `w.running` for the new
record and before it holds `w.mu`, and `now` is the clock read by
`emitUsage`. -/
structure Tick where
  before : List Int
  recv : Except Error UsageStats
  racing : List Int
  now : Time
deriving Repr

/-- The record built at lines 166-175 from a received element. -/
def mkUsage (w : Worker) (stats : UsageStats) : Usage :=
  { id := w.id
    addr := w.addr
    cpu := stats.cpu
    mem := stats.mem
    jobsMax := toInt32 w.max
    jobsRunning := toInt32 w.running
    timestamp := ptypesTimestamp stats.timestamp }

/-- Lines 178-182: append, and drop the first element when the slice has
grown past 120. -/
def pushUsage (ring : List Usage) (usage : Usage) : List Usage :=
  let ring := ring ++ [usage]
  if ring.length > 120 then ring.drop 1 else ring

/-- The body of the loop after a successful `Recv` (lines 166-185). -/
def usageStep (stats : UsageStats) (racing : List Int) (now : Time) (s : Sys) : Sys :=
  let usage := mkUsage s.w stats
  let s := s.setCapacities racing
  let s := { s with w := { s.w with usage := pushUsage s.w.usage usage } }
  let s := emitUsage now s
  { s with app := { s.app with workers := mapSet s.app.workers s.w.id s.self } }

/-- The `for` loop of `usageStats` over the turns the stream delivers. The
result is `some err` when the loop returns `err`, and `none` when every listed
turn has been consumed and the loop is waiting in `Recv` again. -/
def usageLoop : List Tick → Sys → Sys × Option Error
  | [], s => (s, none)
  | t :: ts, s =>
    let s := (s.setCapacities t.before).call .recv
    match t.recv with
    | .error err => (s, some err)
    | .ok stats => usageLoop ts (usageStep stats t.racing t.now s)

/-- `Worker.usageStats`: `stream` is what `w.cli.UsageStats(ctx)` answers. The
deferred `CloseSend` runs when the function returns. -/
def usageStats (stream : Except Error Unit) (ticks : List Tick) (s : Sys) :
    Sys × Option Error :=
  let s := s.call .usageStats
  match stream with
  | .error err => (s, some err)
  | .ok _ =>
    match usageLoop ticks s with
    | (s, some err) => (s.call .closeSend, some err)
    | (s, none) => (s, none)

/-- What the worker's side answers during one `Run`. -/
structure RunEnv where
  hostInfo : Except Error HostInfoReply
  stream : Except Error Unit
  ticks : List Tick

/-- Lines 90-95 of `Run`: record the host, set `max`, announce the worker,
store it in the registry and hand it to the scheduler. -/
def register (host : HostInfo) (s : Sys) : Sys :=
  let s := { s with w := { s.w with host := host } }
  let s := { s with w := { s.w with max := toInt64 s.w.host.maxConcurrency } }
  let s := emitData s
  let s := { s with app := { s.app with workers := mapSet s.app.workers s.w.id s.self } }
  { s with app := { s.app with scheduler := s.app.scheduler ++ [s.self] } }

/-- `Worker.Run`. The goroutine and the channel amount to: wait until
`usageStats` returns an error, then return it. The result is `none` while
`Run` is still waiting on the channel, `some err` when it has returned `err`;
the deferred `w.conn.Close()` runs on return. -/
def Run (env : RunEnv) (s : Sys) : Sys × Option Error :=
  match hostInfo env.hostInfo s with
  | (_, some err, s) => (s.call .connClose, some err)
  | (host, none, s) =>
    match usageStats env.stream env.ticks (register host s) with
    | (s, some err) => (s.call .connClose, some err)
    | (s, none) => (s, none)

/-- Modelled from the spec: the registry operation `on_disconnect(id)`, which
"removes the worker, releases any of its assignments back to the Scheduler as
requeue, broadcasts `workers_delete`", and which the registry performs when
`Run` returns ("any read error on the telemetry stream is terminal for that
worker: close connection, remove from registry, requeue its in-flight jobs").
The code that calls `Run` and reacts to its error is outside these files.
Assignments are not part of `App` as `worker.go` sees it, so the requeue has
nothing to act on here. -/
def on_disconnect (id : String) (app : App) : App :=
  { app with
    workers := app.workers.filter (fun e => e.1 != id)
    ws := app.ws ++ [⟨"/subs/workers_delete", .workersDelete id⟩] }

/-! ## `StartJob` and the dispatch key -/

/-- Split a path at every `'/'`, keeping empty pieces. -/
def splitSlash : List Char → List (List Char)
  | [] => [[]]
  | c :: cs =>
    if c = '/' then [] :: splitSlash cs
    else
      match splitSlash cs with
      | [] => [[c]]
      | g :: gs => (c :: g) :: gs

/-- Join pieces with `'/'` between them. -/
def joinSlash : List (List Char) → List Char
  | [] => []
  | [g] => g
  | g :: h :: gs => g ++ '/' :: joinSlash (h :: gs)

/-- The element-wise work of Go's `path.Clean`: empty and `.` elements are
dropped; `..` removes the element before it, is dropped at the start of a
rooted path, and is kept at the start of a relative one. `out` holds the
elements kept so far, last first. -/
def cleanSegments (rooted : Bool) : List (List Char) → List (List Char) → List (List Char)
  | out, [] => out.reverse
  | out, g :: gs =>
    if g = [] ∨ g = ['.'] then cleanSegments rooted out gs
    else if g = ['.', '.'] then
      match out with
      | top :: rest =>
        if top = ['.', '.'] then cleanSegments rooted (g :: out) gs
        else cleanSegments rooted rest gs
      | [] => if rooted then cleanSegments rooted [] gs else cleanSegments rooted [g] gs
    else cleanSegments rooted (g :: out) gs

/-- Go's `path.Clean`. -/
def pathClean (p : List Char) : List Char :=
  if p = [] then ['.']
  else
    let rooted : Bool := p.head? = some '/'
    let out := (if rooted then ['/'] else []) ++ joinSlash (cleanSegments rooted [] (splitSlash p))
    if out = [] then ['.'] else out

/-- Go's `path.Join`: the elements are put together with `'/'` between them,
leading empty elements being skipped, and the result is cleaned; all elements
empty gives the empty string. -/
def pathJoin (elems : List (List Char)) : List Char :=
  if (elems.map List.length).sum = 0 then []
  else
    pathClean (elems.foldl
      (fun buf e =>
        if buf ≠ [] ∨ e ≠ [] then (if buf ≠ [] then buf ++ ['/'] else buf) ++ e else buf) [])

/-- Modelled from the spec: the job record `core.Job` (declared outside these
files), with the attributes the spec gives a Job. `StartJob` reads only the
identifier. -/
structure Job where
  id : Int
  buildID : Int
  image : String
  commands : List String
  env : List String
  status : String
  startedAt : Option Time
  endedAt : Option Time
  log : String
deriving DecidableEq, Repr

/-- The string `fmt.Sprintf("%d", n)`. -/
def sprintfD (n : Int) : String := toString n

/-- The key `path.Join(shared.PendingPrefix, fmt.Sprintf("%d", job.ID))`. The
constant `shared.PendingPrefix` is declared outside these files and is taken
as an argument. -/
def pendingKey (PendingPrefix : String) (job : Job) : String :=
  String.mk (pathJoin [PendingPrefix.data, (sprintfD job.id).data])

/-- `Worker.StartJob`: `marshal` is `jsoniter.MarshalToString` and `put` is
what `w.app.client.Put` answers. -/
def StartJob (PendingPrefix : String) (marshal : Job → Except Error String)
    (put : Except Error Unit) (job : Job) (s : Sys) : Sys × Option Error :=
  match marshal job with
  | .error err => (s, some err)
  | .ok data =>
    let s := { s with app := { s.app with
                 client := s.app.client ++ [(pendingKey PendingPrefix job, data)] } }
    match put with
    | .error err => (s, some err)
    | .ok _ => (s, none)

/-- A path element that `path.Clean` keeps as it is: not empty, without
`'/'`, and neither `.` nor `..`. -/
def plainSegment (g : List Char) : Prop :=
  g ≠ [] ∧ '/' ∉ g ∧ g ≠ ['.'] ∧ g ≠ ['.', '.']

/-- The path with the given elements, rooted or relative. -/
def mkPath (rooted : Bool) (segs : List (List Char)) : List Char :=
  (if rooted then ['/'] else []) ++ joinSlash segs

instance (g : List Char) : Decidable (plainSegment g) := by
  unfold plainSegment; exact inferInstance

/-! ## `BuildController.TriggerBuild` -/

/-- The digits of a decimal numeral, most significant first; `none` when the
text is empty or holds anything but `0`-`9`. -/
def parseDigits : List Char → Option Nat
  | [] => none
  | cs => cs.foldl (fun acc c =>
      match acc with
      | none => none
      | some n => if c.isDigit then some (n * 10 + (c.toNat - 48)) else none) (some 0)

/-- Go's `strconv.Atoi`: an optional sign and at least one decimal digit; a
value outside the range of `int` is an error as well. -/
def Atoi (s : String) : Except Error Int :=
  let signed : Bool × List Char :=
    match s.data with
    | '-' :: r => (true, r)
    | '+' :: r => (false, r)
    | r => (false, r)
  match parseDigits signed.2 with
  | none => .error ("strconv.Atoi: parsing " ++ s.quote ++ ": invalid syntax")
  | some n =>
    let v : Int := if signed.1 then -(n : Int) else (n : Int)
    if inInt64 v then .ok v
    else .error ("strconv.Atoi: parsing " ++ s.quote ++ ": value out of range")

/-- `triggerForm`. -/
structure triggerForm where
  ID : String
deriving DecidableEq, Repr

/-- What `TriggerBuild` reads of the request: the `Authorization` header and
the body. -/
structure Request where
  authorization : String
  body : String
deriving DecidableEq, Repr

/-- The value passed to `JSONResponse`: `ErrorResponse{Data: msg}` or
`Response{Data: r}`. -/
inductive ResponseData (R : Type) where
  | error (msg : String)
  | data (r : R)
deriving DecidableEq, Repr

/-- `http.StatusOK`. -/
def StatusOK : Nat := 200

/-- `http.StatusUnauthorized`. -/
def StatusUnauthorized : Nat := 401

/-- `http.StatusInternalServerError`. -/
def StatusInternalServerError : Nat := 500

/-- What one call of `TriggerBuild` does: the calls of `JSONResponse` (status
and value) and the calls of `c.service.TriggerBuild` (repo id, user id), each
oldest first, and whether the deferred `req.Body.Close()` was registered. -/
structure Handled (R : Type) where
  responses : List (Nat × ResponseData R)
  calls : List (Int × Int)
  bodyClosed : Bool
deriving DecidableEq, Repr

/-- `BuildController.TriggerBuild`. `GetUserIDFromJWT` is the helper of
package `auth`, `decode` is what the JSON decoder makes of the body, and
`service` is `c.service.TriggerBuild`. -/
def TriggerBuild {R : Type} (GetUserIDFromJWT : String → Except Error Int)
    (decode : String → Except Error triggerForm) (service : Int → Int → R)
    (req : Request) : Handled R :=
  let token := req.authorization
  match GetUserIDFromJWT token with
  | .error err => ⟨[(StatusUnauthorized, .error err)], [], false⟩
  | .ok userID =>
    match decode req.body with
    | .error err => ⟨[(StatusInternalServerError, .error err)], [], false⟩
    | .ok form =>
      match Atoi form.ID with
      | .error err => ⟨[(StatusInternalServerError, .error err)], [], true⟩
      | .ok repoID =>
        ⟨[(StatusOK, .data (service (toUint64 repoID) (toUint64 userID)))],
         [(toUint64 repoID, toUint64 userID)], true⟩

/-! ## `DefaultProviderService.ReposList` -/

/-- The fields of `model.Provider` (declared outside these files) that
`ReposList` reads. -/
structure Provider where
  name : String
  url : String
  accessToken : String
deriving DecidableEq, Repr

/-- The permission record of a repository as the SCM client reports it
(`repo.Perm`, declared outside these files). The source reads its three flags
without a guard, so every listed repository carries one. -/
structure ScmPerm where
  pull : Bool
  push : Bool
  admin : Bool
deriving DecidableEq, Repr

/-- One element of what `scm.ListRepos` returns (declared outside these
files), with the fields `ReposList` reads. The values are only copied. -/
structure ScmRepository where
  id : String
  Namespace : String
  name : String
  perm : ScmPerm
  branch : String
  isPrivate : Bool
  clone : String
  cloneSSH : String
  link : String
  created : Time
  updated : Time
deriving DecidableEq, Repr

/-- The record `repository.Permission`. -/
structure Permission where
  pull : Bool
  push : Bool
  admin : Bool
deriving DecidableEq, Repr

/-- The record `repository.Repository` as `ReposList` fills it. -/
structure Repository where
  id : String
  Namespace : String
  name : String
  permission : Permission
  branch : String
  isPrivate : Bool
  clone : String
  cloneSSH : String
  link : String
  created : Time
  updated : Time
deriving DecidableEq, Repr

/-- The steps `ReposList` can perform on its collaborators, with their
arguments. -/
inductive ProviderStep where
  | find (providerID userID : Nat)
  | newSCM (name url accessToken : String)
  | listRepos (page size : Int)
deriving DecidableEq, Repr

/-- An SCM client, by what its `ListRepos(page, size)` answers. -/
abbrev ScmClient := Int → Int → Except Error (List ScmRepository)

/-- The body of the `for` loop of `ReposList`: build `perm` and `r` from
`repo` and append `r`. -/
def reposStep (repos : List Repository) (repo : ScmRepository) : List Repository :=
  let perm : Permission :=
    { pull := repo.perm.pull
      push := repo.perm.push
      admin := repo.perm.admin }
  let r : Repository :=
    { id := repo.id
      Namespace := repo.Namespace
      name := repo.name
      permission := perm
      branch := repo.branch
      isPrivate := repo.isPrivate
      clone := repo.clone
      cloneSSH := repo.cloneSSH
      link := repo.link
      created := repo.created
      updated := repo.updated }
  repos ++ [r]

/-- `DefaultProviderService.ReposList`. `find` is `s.repo.Find` and `NewSCM`
is `scm.NewSCM` (the context argument left out). The result is the slice, the
error (`none` for nil), and the steps performed, oldest first. -/
def ReposList (find : Nat → Nat → Except Error Provider)
    (NewSCM : String → String → String → Except Error ScmClient)
    (ProviderID UserID : Nat) (page size : Int) :
    List Repository × Option Error × List ProviderStep :=
  let repos : List Repository := []
  match find ProviderID UserID with
  | .error err => (repos, some err, [.find ProviderID UserID])
  | .ok provider =>
    match NewSCM provider.name provider.url provider.accessToken with
    | .error err =>
      (repos, some err,
        [.find ProviderID UserID, .newSCM provider.name provider.url provider.accessToken])
    | .ok scm =>
      match scm page size with
      | .error err =>
        (repos, some err,
          [.find ProviderID UserID, .newSCM provider.name provider.url provider.accessToken,
           .listRepos page size])
      | .ok repositories =>
        (repositories.foldl reposStep repos, none,
          [.find ProviderID UserID, .newSCM provider.name provider.url provider.accessToken,
           .listRepos page size])

/-! ## Specification-side helpers -/

/-- The elements `usageStats` receives from the stream: those of the turns
before the first failed `Recv`. -/
def received : List Tick → List UsageStats
  | [] => []
  | t :: ts =>
    match t.recv with
    | .error _ => []
    | .ok stats => stats :: received ts

/-- The measurement carried by a stored record. -/
def Usage.sample (u : Usage) : Int × Int × Time := (u.cpu, u.mem, u.timestamp)

/-- The measurement carried by a received element. -/
def UsageStats.sample (st : UsageStats) : Int × Int × Time :=
  (st.cpu, st.mem, ptypesTimestamp st.timestamp)

/-- The last `k` elements of a list, in order. -/
def lastN {α : Type} (k : Nat) (l : List α) : List α := l.drop (l.length - k)

/-- The state in which `Run` starts `usageStats` when the host-info call has
answered `reply`: lines 86-95 are done, the goroutine of line 99 has not
started. -/
def registered (reply : HostInfoReply) (s : Sys) : Sys :=
  register (hostInfo (.ok reply) s).1 (hostInfo (.ok reply) s).2.2

/-- The topic and readings of a usage broadcast; `none` for any other
payload. -/
def Broadcast.usageReading (b : Broadcast) : Option (String × Int × Int) :=
  match b.payload with
  | .workersUsage _ _ cpu mem _ _ _ => some (b.topic, cpu, mem)
  | .workersAdd _ _ _ _ => none
  | .workersDelete _ => none

/-! ## Concrete data used in the instances below -/

/-- An application with one other worker registered. -/
def exampleApp : App :=
  { workers := [("w0", 7)], scheduler := [7], ws := [], client := [] }

/-- A worker as `newWorker` leaves it, at address `1`. -/
def exampleSys : Sys :=
  { self := 1
    w := { id := "w1", max := 0, running := 0, addr := "10.0.0.1:3330",
           host := HostInfo.zero, usage := [] }
    app := exampleApp
    calls := [] }

/-- A host-info answer of a virtualised worker with four slots. -/
def exampleReply : HostInfoReply :=
  { id := "w1", addr := "10.0.0.1:3330", hostname := "builder-1", uptime := 3600,
    bootTime := 1600000000, procs := 212, os := "linux", platform := "ubuntu",
    platformFamily := "debian", platformVersion := "20.04",
    kernelVersion := "5.4.0", kernelArch := "x86_64",
    virtualizationSystem := "kvm", virtualizationRole := "guest",
    maxConcurrency := 4 }

/-- Two elements delivered, then the stream breaks; a `SetCapacity(1)` lands
while the second record is being built. -/
def exampleTicks : List Tick :=
  [ { before := [], recv := .ok ⟨12, 40, some ⟨1600000100, 0⟩⟩, racing := [], now := ⟨1600000100, 5⟩ },
    { before := [], recv := .ok ⟨35, 41, some ⟨1600000101, 0⟩⟩, racing := [1], now := ⟨1600000101, 7⟩ },
    { before := [], recv := .error "EOF", racing := [], now := ⟨0, 0⟩ },
    { before := [], recv := .ok ⟨99, 99, none⟩, racing := [], now := ⟨0, 0⟩ } ]

/-- A job with id 42. -/
def exampleJob : Job :=
  { id := 42, buildID := 7, image := "golang:1.14", commands := ["go test ./..."],
    env := [], status := "queued", startedAt := none, endedAt := none, log := "" }

/-- A token helper that knows one token. -/
def exampleAuth (token : String) : Except Error Int :=
  if token = "Bearer good" then .ok 3 else .error "invalid token"

/-- A decoder that knows two bodies. -/
def exampleDecode (body : String) : Except Error triggerForm :=
  if body = "\x7b\"id\":\"15\"\x7d" then .ok ⟨"15"⟩
  else if body = "\x7b\"id\":\"x\"\x7d" then .ok ⟨"x"⟩
  else .error "unexpected end of JSON input"

/-- A provider stored for user 3 under id 1. -/
def exampleFind (providerID userID : Nat) : Except Error Provider :=
  if providerID = 1 ∧ userID = 3 then .ok ⟨"github", "https://api.github.com", "tok"⟩
  else .error "record not found"

/-- Two repositories as an SCM client lists them. -/
def exampleRepos : List ScmRepository :=
  [ { id := "101", Namespace := "acme", name := "api", perm := ⟨true, true, false⟩,
      branch := "master", isPrivate := false, clone := "https://github.com/acme/api.git",
      cloneSSH := "git@github.com:acme/api.git", link := "https://github.com/acme/api",
      created := ⟨1500000000, 0⟩, updated := ⟨1600000000, 0⟩ },
    { id := "102", Namespace := "acme", name := "web", perm := ⟨true, false, false⟩,
      branch := "main", isPrivate := true, clone := "https://github.com/acme/web.git",
      cloneSSH := "git@github.com:acme/web.git", link := "https://github.com/acme/web",
      created := ⟨1510000000, 0⟩, updated := ⟨1610000000, 0⟩ } ]

/-- An SCM factory that knows the `github` provider only. -/
def exampleNewSCM (name _url _accessToken : String) : Except Error ScmClient :=
  if name = "github" then .ok (fun _ _ => .ok exampleRepos)
  else .error "unknown scm provider"

/-! ## Machine-integer facts -/

theorem toInt64_eq_self {x : Int} (h : inInt64 x) : toInt64 x = x := by
  unfold inInt64 at h
  unfold toInt64
  omega

theorem inInt64_toInt64 (x : Int) : inInt64 (toInt64 x) := by
  unfold inInt64 toInt64
  omega

/-! ## `Capacity` and `SetCapacity` -/

/-- C1. `Capacity()` leaves the worker as it was (so `max`, `running` and the
usage ring are unchanged) and returns `max - running` as Go computes it on
`int`; whenever that difference fits a Go `int` (as it does for
`0 ≤ running ≤ max`) the result is the mathematical `max - running`. -/
theorem Capacity_returns_max_sub_running (w : Worker) :
    w.Capacity.2 = w ∧
    w.Capacity.2.max = w.max ∧ w.Capacity.2.running = w.running ∧
    w.Capacity.2.usage = w.usage ∧
    w.Capacity.1 = toInt64 (w.max - w.running) ∧
    (inInt64 (w.max - w.running) → w.Capacity.1 = w.max - w.running) := by
  refine ⟨rfl, rfl, rfl, rfl, rfl, fun h => ?_⟩
  exact toInt64_eq_self h

/-- Instance of C1 at `max = 4`, `running = 1`. -/
theorem Capacity_returns_max_sub_running_witness :
    inInt64 (4 - 1) ∧
    (Worker.mk "w1" 4 1 "10.0.0.1:3330" HostInfo.zero []).Capacity.1 = 4 - 1 :=
  ⟨by decide,
   (Capacity_returns_max_sub_running
      (Worker.mk "w1" 4 1 "10.0.0.1:3330" HostInfo.zero [])).2.2.2.2.2 (by decide)⟩

/-- C3 as stated fails: on a worker with `max = 2`, `SetCapacity(5)` leaves
`running = 5 > max`, and `Capacity()` is then `-3`. -/
theorem SetCapacity_invariant_counterexample :
    ((Worker.mk "w1" 2 0 "10.0.0.1:3330" HostInfo.zero []).SetCapacity 5).running = 5 ∧
    ¬ (((Worker.mk "w1" 2 0 "10.0.0.1:3330" HostInfo.zero []).SetCapacity 5).running
        ≤ ((Worker.mk "w1" 2 0 "10.0.0.1:3330" HostInfo.zero []).SetCapacity 5).max) ∧
    ((Worker.mk "w1" 2 0 "10.0.0.1:3330" HostInfo.zero []).SetCapacity 5).Capacity.1 = -3 ∧
    ¬ (0 ≤ ((Worker.mk "w1" 2 0 "10.0.0.1:3330" HostInfo.zero []).SetCapacity 5).Capacity.1) := by
  decide

/-- C3, amended. `SetCapacity(n)` stores `n` in `running` as it is and changes
nothing else, so `Capacity()` afterwards is `max - n`; the invariant
`0 ≤ running ≤ max` holds afterwards exactly when `0 ≤ n ≤ max`, and (for
values of Go `int`) so does `0 ≤ Capacity() ≤ max`. -/
theorem SetCapacity_sets_running (w : Worker) (n : Int) :
    w.SetCapacity n = { w with running := n } ∧
    (w.SetCapacity n).running = n ∧
    (w.SetCapacity n).max = w.max ∧
    (w.SetCapacity n).Capacity.1 = toInt64 (w.max - n) ∧
    ((0 ≤ (w.SetCapacity n).running ∧ (w.SetCapacity n).running ≤ (w.SetCapacity n).max)
      ↔ (0 ≤ n ∧ n ≤ w.max)) ∧
    (inInt64 w.max → inInt64 n →
      (((0 ≤ (w.SetCapacity n).Capacity.1 ∧
          (w.SetCapacity n).Capacity.1 ≤ (w.SetCapacity n).max) ↔ (0 ≤ n ∧ n ≤ w.max)) ∧
       (0 ≤ n → n ≤ w.max → (w.SetCapacity n).Capacity.1 = w.max - n))) := by
  refine ⟨rfl, rfl, rfl, rfl, Iff.rfl, fun hm hn => ?_⟩
  simp only [Worker.SetCapacity, Worker.Capacity]
  unfold inInt64 at hm hn
  unfold toInt64
  constructor
  · constructor
    · intro h; omega
    · intro h; omega
  · intro h0 h1; omega

/-- Instance of the amended C3 at `max = 2`, `n = 1`. -/
theorem SetCapacity_sets_running_witness :
    inInt64 2 ∧ inInt64 1 ∧
    ((Worker.mk "w1" 2 0 "10.0.0.1:3330" HostInfo.zero []).SetCapacity 1).Capacity.1 = 2 - 1 :=
  ⟨by decide, by decide,
   ((SetCapacity_sets_running (Worker.mk "w1" 2 0 "10.0.0.1:3330" HostInfo.zero []) 1).2.2.2.2.2
      (by decide) (by decide)).2 (by decide) (by decide)⟩

/-! ## Frame facts: what each step leaves alone -/

theorem foldl_SetCapacity_usage (ns : List Int) (w : Worker) :
    (ns.foldl Worker.SetCapacity w).usage = w.usage := by
  induction ns generalizing w with
  | nil => rfl
  | cons n ns ih => simp [List.foldl, ih, Worker.SetCapacity]

theorem foldl_SetCapacity_max (ns : List Int) (w : Worker) :
    (ns.foldl Worker.SetCapacity w).max = w.max := by
  induction ns generalizing w with
  | nil => rfl
  | cons n ns ih => simp [List.foldl, ih, Worker.SetCapacity]

theorem foldl_SetCapacity_id (ns : List Int) (w : Worker) :
    (ns.foldl Worker.SetCapacity w).id = w.id := by
  induction ns generalizing w with
  | nil => rfl
  | cons n ns ih => simp [List.foldl, ih, Worker.SetCapacity]

theorem foldl_SetCapacity_addr (ns : List Int) (w : Worker) :
    (ns.foldl Worker.SetCapacity w).addr = w.addr := by
  induction ns generalizing w with
  | nil => rfl
  | cons n ns ih => simp [List.foldl, ih, Worker.SetCapacity]

theorem emitUsage_w (now : Time) (s : Sys) : (emitUsage now s).w = s.w := by
  unfold emitUsage
  split <;> rfl

theorem usageStep_usage (stats : UsageStats) (racing : List Int) (now : Time) (s : Sys) :
    (usageStep stats racing now s).w.usage = pushUsage s.w.usage (mkUsage s.w stats) := by
  simp [usageStep, emitUsage_w, Sys.setCapacities, foldl_SetCapacity_usage]

/-! ## The usage ring -/

theorem lastN_length {α : Type} (k : Nat) (l : List α) :
    (lastN k l).length = min l.length k := by
  unfold lastN
  rw [List.length_drop]
  omega

theorem lastN_snoc_of_lt {α : Type} (k : Nat) (l : List α) (x : α) (h : l.length < k) :
    lastN k (l ++ [x]) = lastN k l ++ [x] := by
  unfold lastN
  have h1 : (l ++ [x]).length - k = 0 := by simp; omega
  have h2 : l.length - k = 0 := by omega
  rw [h1, h2]
  simp

theorem lastN_snoc_of_le {α : Type} (k : Nat) (l : List α) (x : α)
    (h : k ≤ l.length) (hk : 0 < k) :
    lastN k (l ++ [x]) = (lastN k l ++ [x]).drop 1 := by
  unfold lastN
  have h1 : (l ++ [x]).length - k = l.length - k + 1 := by simp; omega
  rw [h1, List.drop_append_of_le_length (by omega),
    List.drop_append_of_le_length (by rw [List.length_drop]; omega), List.drop_drop]

/-- Appending to a ring that holds the last 120 of `acc` gives the last 120 of
`acc` extended by the new measurement. -/
theorem pushUsage_lastN (ring : List Usage) (u : Usage) (acc : List (Int × Int × Time))
    (h : ring.map Usage.sample = lastN 120 acc) :
    (pushUsage ring u).map Usage.sample = lastN 120 (acc ++ [u.sample]) := by
  have hlen : ring.length = min acc.length 120 := by
    have := congrArg List.length h
    rwa [List.length_map, lastN_length] at this
  unfold pushUsage
  by_cases hacc : acc.length < 120
  · have hnot : ¬ (ring ++ [u]).length > 120 := by simp; omega
    simp only [hnot, if_false]
    rw [lastN_snoc_of_lt 120 acc _ hacc, ← h]
    simp
  · have hgt : (ring ++ [u]).length > 120 := by simp; omega
    simp only [hgt, if_true]
    rw [lastN_snoc_of_le 120 acc _ (by omega) (by decide), ← h]
    simp

/-- The loop keeps the ring equal to the last 120 measurements seen so far. -/
theorem usageLoop_ring (ticks : List Tick) :
    ∀ (s : Sys) (acc : List (Int × Int × Time)),
      s.w.usage.map Usage.sample = lastN 120 acc →
      (usageLoop ticks s).1.w.usage.map Usage.sample
        = lastN 120 (acc ++ (received ticks).map UsageStats.sample) := by
  induction ticks with
  | nil => intro s acc h; simpa [usageLoop, received] using h
  | cons t ts ih =>
    intro s acc h
    unfold usageLoop received
    cases hr : t.recv with
    | error err =>
      simpa [Sys.call, Sys.setCapacities, foldl_SetCapacity_usage] using h
    | ok stats =>
      simp only []
      have hstep := ih (usageStep stats t.racing t.now ((s.setCapacities t.before).call .recv))
        (acc ++ [stats.sample]) (by
          rw [usageStep_usage]
          have := pushUsage_lastN ((s.setCapacities t.before).call .recv).w.usage
            (mkUsage ((s.setCapacities t.before).call .recv).w stats) acc
            (by simpa [Sys.call, Sys.setCapacities, foldl_SetCapacity_usage] using h)
          simpa [Usage.sample, UsageStats.sample, mkUsage] using this)
      simpa [List.append_assoc] using hstep

/-- C2. On a worker whose ring starts empty, after `usageStats` has received
`n` elements the ring holds the measurements of exactly the last
`min n 120` of them, in the order received; in particular it never holds more
than 120. -/
theorem usageStats_ring_holds_last_120 (ticks : List Tick) (s : Sys)
    (hempty : s.w.usage = []) :
    (usageStats (.ok ()) ticks s).1.w.usage.map Usage.sample
      = ((received ticks).drop ((received ticks).length - min (received ticks).length 120)).map
          UsageStats.sample ∧
    (usageStats (.ok ()) ticks s).1.w.usage.length = min (received ticks).length 120 ∧
    (usageStats (.ok ()) ticks s).1.w.usage.length ≤ 120 := by
  have key : (usageStats (.ok ()) ticks s).1.w.usage = (usageLoop ticks (s.call .usageStats)).1.w.usage := by
    unfold usageStats
    simp only []
    rcases hloop : usageLoop ticks (s.call .usageStats) with ⟨s1, r⟩
    cases r <;> simp [Sys.call]
  have hring := usageLoop_ring ticks (s.call .usageStats) [] (by simp [Sys.call, hempty, lastN])
  rw [← key] at hring
  have hmap : (usageStats (.ok ()) ticks s).1.w.usage.map Usage.sample
      = ((received ticks).drop ((received ticks).length - min (received ticks).length 120)).map
          UsageStats.sample := by
    rw [hring]
    simp only [List.nil_append, lastN, List.length_map, List.map_drop]
    congr 1
    omega
  refine ⟨hmap, ?_, ?_⟩
  · have := congrArg List.length hmap
    simp only [List.length_map, List.length_drop] at this
    omega
  · have := congrArg List.length hmap
    simp only [List.length_map, List.length_drop] at this
    omega

/-- Instance of C2: two elements received on an empty ring. -/
theorem usageStats_ring_holds_last_120_witness :
    exampleSys.w.usage = [] ∧
    (usageStats (.ok ()) exampleTicks exampleSys).1.w.usage.length
      = min (received exampleTicks).length 120 :=
  ⟨rfl, (usageStats_ring_holds_last_120 exampleTicks exampleSys rfl).2.1⟩

/-! ## `hostInfo` -/

/-- C4, at the failing input. For a reply with `virtualization_system = "kvm"`
and `virtualization_role = "guest"`, the record returned by `hostInfo` has
`virtualization_role = "kvm"`: the reply's role is lost, its
`virtualization_system` fills two fields, and its `hostname` fills both
`hostname` and the field that follows `virtualization_role`. -/
theorem hostInfo_copies_virtualization_system_twice :
    (hostInfo (.ok exampleReply) exampleSys).1.virtualizationRole = "kvm" ∧
    (hostInfo (.ok exampleReply) exampleSys).1.virtualizationRole
      ≠ exampleReply.virtualizationRole ∧
    (hostInfo (.ok exampleReply) exampleSys).1.virtualizationSystem
      = exampleReply.virtualizationSystem ∧
    (hostInfo (.ok exampleReply) exampleSys).1.hostname = exampleReply.hostname ∧
    (hostInfo (.ok exampleReply) exampleSys).1.extra = exampleReply.hostname := by
  decide

/-! ## `Run`: registration -/

/-- C5. When the host-info call fails with `err` (a missed deadline is such a
failure), `Run` returns `err`; the application is untouched (registry,
scheduler and broadcasts as before, so no `workers_add`), the worker's data is
untouched, and the only calls made on the connection are `HostInfo` and the
deferred `Close`: the usage-stats stream is never opened. -/
theorem Run_rejects_worker_on_hostInfo_error (env : RunEnv) (s : Sys) (err : Error)
    (h : env.hostInfo = .error err) :
    (Run env s).2 = some err ∧
    (Run env s).1.app = s.app ∧
    (Run env s).1.app.workers = s.app.workers ∧
    (Run env s).1.app.scheduler = s.app.scheduler ∧
    (Run env s).1.app.ws = s.app.ws ∧
    (Run env s).1.w = s.w ∧
    (Run env s).1.calls = s.calls ++ [Call.hostInfo, Call.connClose] ∧
    (Call.usageStats ∉ s.calls → Call.usageStats ∉ (Run env s).1.calls) := by
  have hrun : Run env s = ((s.call .hostInfo).call .connClose, some err) := by
    simp [Run, hostInfo, h]
  rw [hrun]
  refine ⟨rfl, rfl, rfl, rfl, rfl, rfl, ?_, ?_⟩
  · simp [Sys.call]
  · intro hs
    simp [Sys.call, hs]

/-- Instance of C5: the host-info call times out. -/
theorem Run_rejects_worker_on_hostInfo_error_witness :
    (Run ⟨.error "context deadline exceeded", .ok (), exampleTicks⟩ exampleSys).2
      = some "context deadline exceeded" ∧
    (Run ⟨.error "context deadline exceeded", .ok (), exampleTicks⟩ exampleSys).1.app
      = exampleApp :=
  ⟨(Run_rejects_worker_on_hostInfo_error
      ⟨.error "context deadline exceeded", .ok (), exampleTicks⟩ exampleSys
      "context deadline exceeded" rfl).1,
   (Run_rejects_worker_on_hostInfo_error
      ⟨.error "context deadline exceeded", .ok (), exampleTicks⟩ exampleSys
      "context deadline exceeded" rfl).2.1⟩

theorem mapGet_mapSet (m : List (String × Ptr)) (k : String) (v : Ptr) :
    mapGet (mapSet m k v) k = some v := by
  simp [mapGet, mapSet, List.lookup]

/-- C6. For a worker fresh from `newWorker`, when the host-info call succeeds
with `reply`, `Run` starts `usageStats` from the state `registered reply s`,
in which the stream has not been opened, the registry maps the worker's own
id to this worker, `max` is the reported `max_concurrency` converted to `int`,
`running` is `0`, and `Capacity()` returns that `max`; when the reported value
fits a Go `int` both are the reported value itself. -/
theorem Run_registers_worker_before_telemetry (addr id : String) (opts : Options)
    (app : App) (loadKeyPair dial : Except Error Unit) (self : Ptr) (s : Sys)
    (env : RunEnv) (reply : HostInfoReply)
    (hnew : newWorker addr id opts app loadKeyPair dial self = .ok s)
    (hok : env.hostInfo = .ok reply) :
    (Run env s =
      match usageStats env.stream env.ticks (registered reply s) with
      | (s2, some err) => (s2.call .connClose, some err)
      | (s2, none) => (s2, none)) ∧
    Call.usageStats ∉ (registered reply s).calls ∧
    (registered reply s).self = self ∧ (registered reply s).w.id = id ∧
    mapGet (registered reply s).app.workers id = some self ∧
    (registered reply s).w.max = toInt64 reply.maxConcurrency ∧
    (registered reply s).w.running = 0 ∧
    (registered reply s).w.Capacity.1 = toInt64 reply.maxConcurrency ∧
    (inInt64 reply.maxConcurrency →
      (registered reply s).w.max = reply.maxConcurrency ∧
      (registered reply s).w.Capacity.1 = reply.maxConcurrency) := by
  have hs : s = { self := self
                  w := { id := id, max := 0, running := 0, addr := addr,
                         host := HostInfo.zero, usage := [] }
                  app := app
                  calls := [] } := by
    unfold newWorker at hnew
    split at hnew
    · cases hnew
    · cases loadKeyPair <;> cases dial <;> simp at hnew
      exact hnew.symm
  subst hs
  unfold registered
  refine ⟨?_, ?_, rfl, rfl, ?_, rfl, rfl, ?_, ?_⟩
  · simp [Run, hostInfo, hok]
  · simp [register, hostInfo, emitData, Sys.broadcast, Sys.call]
  · exact mapGet_mapSet _ _ _
  · simp only [Worker.Capacity, register, hostInfo, emitData, Sys.broadcast, Sys.call]
    rw [Int.sub_zero]
    exact toInt64_eq_self (inInt64_toInt64 _)
  · intro hfit
    have hmax : toInt64 reply.maxConcurrency = reply.maxConcurrency := toInt64_eq_self hfit
    refine ⟨hmax, ?_⟩
    simp only [Worker.Capacity, register, hostInfo, emitData, Sys.broadcast, Sys.call]
    rw [Int.sub_zero, hmax, hmax]

/-- Instance of C6: a worker reporting four slots. -/
theorem Run_registers_worker_before_telemetry_witness :
    newWorker "10.0.0.1:3330" "w1" ⟨"cert.pem", "key.pem"⟩ exampleApp (.ok ()) (.ok ()) 1
      = .ok exampleSys ∧
    mapGet (registered exampleReply exampleSys).app.workers "w1" = some 1 ∧
    (registered exampleReply exampleSys).w.running = 0 ∧
    (registered exampleReply exampleSys).w.Capacity.1 = 4 :=
  ⟨rfl,
   (Run_registers_worker_before_telemetry "10.0.0.1:3330" "w1" ⟨"cert.pem", "key.pem"⟩
      exampleApp (.ok ()) (.ok ()) 1 exampleSys ⟨.ok exampleReply, .ok (), exampleTicks⟩
      exampleReply rfl rfl).2.2.2.2.1,
   (Run_registers_worker_before_telemetry "10.0.0.1:3330" "w1" ⟨"cert.pem", "key.pem"⟩
      exampleApp (.ok ()) (.ok ()) 1 exampleSys ⟨.ok exampleReply, .ok (), exampleTicks⟩
      exampleReply rfl rfl).2.2.2.2.2.2.1,
   ((Run_registers_worker_before_telemetry "10.0.0.1:3330" "w1" ⟨"cert.pem", "key.pem"⟩
      exampleApp (.ok ()) (.ok ()) 1 exampleSys ⟨.ok exampleReply, .ok (), exampleTicks⟩
      exampleReply rfl rfl).2.2.2.2.2.2.2.2 (by decide)).2⟩

/-! ## `usageStats`: broadcasts -/

theorem pushUsage_eq_snoc (ring : List Usage) (u : Usage) :
    ∃ l, pushUsage ring u = l ++ [u] := by
  unfold pushUsage
  by_cases h : (ring ++ [u]).length > 120
  · refine ⟨ring.drop 1, ?_⟩
    simp only [h, if_true]
    rw [List.drop_append_of_le_length]
    simp at h
    omega
  · exact ⟨ring, by simp only [h, if_false]⟩

theorem emitUsage_of_snoc (now : Time) (s : Sys) (l : List Usage) (u : Usage)
    (h : s.w.usage = l ++ [u]) :
    emitUsage now s = s.broadcast "/subs/workers_usage"
      (.workersUsage s.w.id s.w.addr u.cpu u.mem s.w.max s.w.running now) := by
  unfold emitUsage
  have hlen : ¬ s.w.usage.length < 1 := by simp [h]
  rw [dif_neg hlen]
  have hget : s.w.usage.get ⟨s.w.usage.length - 1, by omega⟩ = u := by
    simp [h]
  simp only [hget]

/-- One turn of the loop adds exactly one broadcast. -/
theorem usageStep_ws (stats : UsageStats) (racing : List Int) (now : Time) (s : Sys) :
    (usageStep stats racing now s).app.ws = s.app.ws ++
      [⟨"/subs/workers_usage",
        .workersUsage s.w.id s.w.addr stats.cpu stats.mem
          (usageStep stats racing now s).w.max (usageStep stats racing now s).w.running now⟩] := by
  obtain ⟨l, hl⟩ := pushUsage_eq_snoc (s.setCapacities racing).w.usage (mkUsage s.w stats)
  unfold usageStep
  simp only []
  rw [emitUsage_of_snoc now _ l (mkUsage s.w stats) hl]
  simp [Sys.broadcast, Sys.setCapacities, mkUsage, emitUsage_w, foldl_SetCapacity_id,
    foldl_SetCapacity_addr]

theorem usageStep_max (stats : UsageStats) (racing : List Int) (now : Time) (s : Sys) :
    (usageStep stats racing now s).w.max = s.w.max := by
  simp [usageStep, emitUsage_w, Sys.setCapacities, foldl_SetCapacity_max]

theorem usageStep_running (stats : UsageStats) (racing : List Int) (now : Time) (s : Sys) :
    (usageStep stats racing now s).w.running = (racing.foldl Worker.SetCapacity s.w).running := by
  simp [usageStep, emitUsage_w, Sys.setCapacities]

/-- Over the whole loop: one usage broadcast for each element received, in
order, and nothing else. -/
theorem usageLoop_ws (ticks : List Tick) :
    ∀ s : Sys, ∃ evs : List Broadcast,
      (usageLoop ticks s).1.app.ws = s.app.ws ++ evs ∧
      evs.map Broadcast.usageReading
        = (received ticks).map (fun st => some ("/subs/workers_usage", st.cpu, st.mem)) := by
  induction ticks with
  | nil => intro s; exact ⟨[], by simp [usageLoop], by simp [received]⟩
  | cons t ts ih =>
    intro s
    unfold usageLoop received
    cases hr : t.recv with
    | error err => exact ⟨[], by simp [Sys.call, Sys.setCapacities], by simp⟩
    | ok stats =>
      simp only []
      obtain ⟨evs, hws, hmap⟩ :=
        ih (usageStep stats t.racing t.now ((s.setCapacities t.before).call .recv))
      rw [usageStep_ws] at hws
      simp only [Sys.call, Sys.setCapacities, List.append_assoc] at hws
      refine ⟨_, hws, ?_⟩
      simp [hmap, Broadcast.usageReading]

/-- C7. One turn of the loop on a received element `stats` adds exactly one
broadcast, on `/subs/workers_usage`, whose `cpu` and `mem` are those of
`stats` (whatever the ring held before, full or not) and whose `jobs_max`
and `jobs_running` are the worker's `max` and `running` at that moment;
over a whole run of `usageStats` the broadcasts added are exactly one per
received element, in order; and `emitUsage` on an empty ring broadcasts
nothing. -/
theorem usageStats_broadcasts_each_received_sample (ticks : List Tick) (s : Sys)
    (stats : UsageStats) (racing : List Int) (now : Time) :
    (usageStep stats racing now s).app.ws = s.app.ws ++
      [⟨"/subs/workers_usage",
        .workersUsage s.w.id s.w.addr stats.cpu stats.mem
          (usageStep stats racing now s).w.max (usageStep stats racing now s).w.running now⟩] ∧
    (usageStep stats racing now s).w.max = s.w.max ∧
    (usageStep stats racing now s).w.running
      = (racing.foldl Worker.SetCapacity s.w).running ∧
    (∃ evs : List Broadcast,
      (usageStats (.ok ()) ticks s).1.app.ws = s.app.ws ++ evs ∧
      evs.map Broadcast.usageReading
        = (received ticks).map (fun st => some ("/subs/workers_usage", st.cpu, st.mem))) ∧
    emitUsage now { s with w := { s.w with usage := [] } }
      = { s with w := { s.w with usage := [] } } := by
  refine ⟨usageStep_ws _ _ _ _, usageStep_max _ _ _ _, usageStep_running _ _ _ _, ?_, ?_⟩
  · obtain ⟨evs, hws, hmap⟩ := usageLoop_ws ticks (s.call .usageStats)
    refine ⟨evs, ?_, hmap⟩
    have key : (usageStats (.ok ()) ticks s).1.app
        = (usageLoop ticks (s.call .usageStats)).1.app := by
      unfold usageStats
      simp only []
      rcases hloop : usageLoop ticks (s.call .usageStats) with ⟨s1, r⟩
      cases r <;> simp [Sys.call]
    rw [key, hws]
    rfl
  · simp [emitUsage]

/-! ## `usageStats` and `Run`: a failed read -/

theorem usageStep_calls (stats : UsageStats) (racing : List Int) (now : Time) (s : Sys) :
    (usageStep stats racing now s).calls = s.calls := by
  simp only [usageStep, emitUsage, Sys.setCapacities]
  split <;> rfl

/-- The loop returns at the first failed `Recv`: what the stream would have
delivered afterwards plays no part, and the calls made are one `Recv` for each
element plus the failed one. -/
theorem usageLoop_stops_at_error (pre : List Tick) (tErr : Tick) (err : Error)
    (post : List Tick) (hpre : ∀ t ∈ pre, ∃ st, t.recv = .ok st)
    (herr : tErr.recv = .error err) :
    ∀ s : Sys,
      usageLoop (pre ++ tErr :: post) s = usageLoop (pre ++ [tErr]) s ∧
      (usageLoop (pre ++ tErr :: post) s).2 = some err ∧
      (usageLoop (pre ++ tErr :: post) s).1.calls
        = s.calls ++ List.replicate (pre.length + 1) Call.recv := by
  induction pre with
  | nil =>
    intro s
    simp [usageLoop, herr, Sys.call, Sys.setCapacities]
  | cons t ts ih =>
    intro s
    obtain ⟨st, hst⟩ := hpre t (List.mem_cons_self _ _)
    have ih' := ih (fun t' ht' => hpre t' (List.mem_cons_of_mem _ ht'))
      (usageStep st t.racing t.now ((s.setCapacities t.before).call .recv))
    simp only [List.cons_append, usageLoop, hst]
    refine ⟨ih'.1, ih'.2.1, ih'.2.2.trans ?_⟩
    rw [usageStep_calls]
    simp [Sys.call, Sys.setCapacities, List.replicate_succ]

/-- The loop leaves the worker registered under its own id. -/
theorem usageLoop_registry (ticks : List Tick) :
    ∀ s : Sys, mapGet s.app.workers s.w.id = some s.self →
      mapGet (usageLoop ticks s).1.app.workers (usageLoop ticks s).1.w.id
        = some (usageLoop ticks s).1.self := by
  induction ticks with
  | nil => intro s h; simpa [usageLoop] using h
  | cons t ts ih =>
    intro s h
    unfold usageLoop
    cases hr : t.recv with
    | error err =>
      simpa [Sys.call, Sys.setCapacities, foldl_SetCapacity_id] using h
    | ok stats =>
      simp only []
      apply ih
      unfold usageStep
      exact mapGet_mapSet _ _ _

theorem mapGet_filter_ne (m : List (String × Ptr)) (k : String) :
    mapGet (m.filter (fun e => e.1 != k)) k = none := by
  unfold mapGet
  induction m with
  | nil => rfl
  | cons e m ih =>
    by_cases hk : e.1 = k
    · simp [List.filter, hk, ih]
    · have hne : (e.1 != k) = true := by simpa using hk
      have hne2 : (k == e.1) = false := by
        simpa using fun h : k = e.1 => hk h.symm
      simp [List.filter, hne, List.lookup, hne2, ih]

/-- C9. When the host-info call and the opening of the stream succeed and the
stream delivers the elements of `pre` and then fails with `err`: `usageStats`
returns `err` at that failed read, and neither its result nor that of `Run`
depends on anything the stream would have delivered afterwards (no later
element is appended or broadcast); `Run` returns `err`; the calls on the
connection are the host-info call, the stream opening, one `Recv` for each
element and one for the failure, `CloseSend`, and finally `Close`. `Run`
itself returns with the worker still in `app.workers`; once the registry has
handled the disconnect (`on_disconnect`), `app.workers` no longer contains
the worker's id. -/
theorem Run_telemetry_read_error_is_terminal (env : RunEnv) (s : Sys)
    (reply : HostInfoReply) (pre post : List Tick) (tErr : Tick) (err : Error)
    (hhost : env.hostInfo = .ok reply) (hstream : env.stream = .ok ())
    (hticks : env.ticks = pre ++ tErr :: post)
    (hpre : ∀ t ∈ pre, ∃ st, t.recv = .ok st)
    (herr : tErr.recv = .error err) :
    (∀ s0 : Sys,
      usageStats (.ok ()) (pre ++ tErr :: post) s0 = usageStats (.ok ()) (pre ++ [tErr]) s0 ∧
      (usageStats (.ok ()) (pre ++ tErr :: post) s0).2 = some err) ∧
    Run env s = Run { env with ticks := pre ++ [tErr] } s ∧
    (Run env s).2 = some err ∧
    (Run env s).1.calls
      = s.calls ++ [Call.hostInfo, Call.usageStats] ++ List.replicate (pre.length + 1) Call.recv
          ++ [Call.closeSend, Call.connClose] ∧
    mapGet (Run env s).1.app.workers (Run env s).1.w.id = some (Run env s).1.self ∧
    mapGet (on_disconnect (Run env s).1.w.id (Run env s).1.app).workers (Run env s).1.w.id
      = none := by
  have hus : ∀ s0 : Sys,
      usageStats (.ok ()) (pre ++ tErr :: post) s0 = usageStats (.ok ()) (pre ++ [tErr]) s0 ∧
      (usageStats (.ok ()) (pre ++ tErr :: post) s0).2 = some err ∧
      (usageStats (.ok ()) (pre ++ tErr :: post) s0).1.calls
        = s0.calls ++ [Call.usageStats] ++ List.replicate (pre.length + 1) Call.recv
            ++ [Call.closeSend] := by
    intro s0
    obtain ⟨h1, h2, h3⟩ := usageLoop_stops_at_error pre tErr err post hpre herr
      (s0.call .usageStats)
    unfold usageStats
    simp only []
    rw [← h1]
    rcases hloop : usageLoop (pre ++ tErr :: post) (s0.call .usageStats) with ⟨s1, r⟩
    rw [hloop] at h2 h3
    simp only at h2 h3
    subst h2
    simp [Sys.call, h3]
  refine ⟨fun s0 => ⟨(hus s0).1, (hus s0).2.1⟩, ?_, ?_, ?_, ?_, mapGet_filter_ne _ _⟩
  · simp only [Run, hostInfo, hhost, hstream, hticks]
    rw [(hus _).1]
  · simp only [Run, hostInfo, hhost, hstream, hticks]
    obtain ⟨-, h2, -⟩ := hus (register (hostInfo (.ok reply) s).1 (s.call .hostInfo))
    simp only [hostInfo] at h2
    rcases hres : usageStats (.ok ()) (pre ++ tErr :: post) _ with ⟨s1, r⟩
    rw [hres] at h2
    simp only at h2
    subst h2
    rfl
  · simp only [Run, hostInfo, hhost, hstream, hticks]
    obtain ⟨-, h2, h3⟩ := hus (register (hostInfo (.ok reply) s).1 (s.call .hostInfo))
    simp only [hostInfo] at h2 h3
    rcases hres : usageStats (.ok ()) (pre ++ tErr :: post) _ with ⟨s1, r⟩
    rw [hres] at h2 h3
    simp only at h2 h3
    subst h2
    simp [Sys.call, h3, register, emitData, Sys.broadcast]
  · have hreg := usageLoop_registry (pre ++ tErr :: post)
      ((register (hostInfo (.ok reply) s).1 (s.call .hostInfo)).call .usageStats)
      (by simp only [Sys.call, register]; exact mapGet_mapSet _ _ _)
    simp only [Run, hostInfo, hhost, hstream, hticks, usageStats]
    simp only [hostInfo] at hreg
    rcases hloop : usageLoop (pre ++ tErr :: post) _ with ⟨s1, r⟩
    rw [hloop] at hreg
    cases r <;> simpa [Sys.call] using hreg

/-- Instance of C9: two elements, then `EOF`, then an element that is never
read. -/
theorem Run_telemetry_read_error_is_terminal_witness :
    (Run ⟨.ok exampleReply, .ok (), exampleTicks⟩ exampleSys).2 = some "EOF" ∧
    (Run ⟨.ok exampleReply, .ok (), exampleTicks⟩ exampleSys).1.calls
      = [Call.hostInfo, Call.usageStats, Call.recv, Call.recv, Call.recv,
         Call.closeSend, Call.connClose] := by
  have h := Run_telemetry_read_error_is_terminal
    ⟨.ok exampleReply, .ok (), exampleTicks⟩ exampleSys exampleReply
    [ { before := [], recv := .ok ⟨12, 40, some ⟨1600000100, 0⟩⟩, racing := [],
        now := ⟨1600000100, 5⟩ },
      { before := [], recv := .ok ⟨35, 41, some ⟨1600000101, 0⟩⟩, racing := [1],
        now := ⟨1600000101, 7⟩ } ]
    [ { before := [], recv := .ok ⟨99, 99, none⟩, racing := [], now := ⟨0, 0⟩ } ]
    { before := [], recv := .error "EOF", racing := [], now := ⟨0, 0⟩ } "EOF"
    rfl rfl rfl
    (by
      intro t ht
      simp only [List.mem_cons, List.mem_singleton, List.not_mem_nil, or_false] at ht
      rcases ht with rfl | rfl
      · exact ⟨_, rfl⟩
      · exact ⟨_, rfl⟩)
    rfl
  exact ⟨h.2.2.1, h.2.2.2.1⟩

/-! ## Paths and decimal numerals -/

theorem splitSlash_of_noSlash (g : List Char) (h : '/' ∉ g) : splitSlash g = [g] := by
  induction g with
  | nil => rfl
  | cons c cs ih =>
    have hc : c ≠ '/' := fun e => h (by simp [e])
    have hcs : '/' ∉ cs := fun e => h (List.mem_cons_of_mem _ e)
    simp [splitSlash, hc, ih hcs]

theorem splitSlash_append_slash (g rest : List Char) (h : '/' ∉ g) :
    splitSlash (g ++ '/' :: rest) = g :: splitSlash rest := by
  induction g with
  | nil => simp [splitSlash]
  | cons c cs ih =>
    have hc : c ≠ '/' := fun e => h (by simp [e])
    have hcs : '/' ∉ cs := fun e => h (List.mem_cons_of_mem _ e)
    simp [splitSlash, hc, ih hcs]

theorem splitSlash_joinSlash (segs : List (List Char)) (hne : segs ≠ [])
    (h : ∀ g ∈ segs, '/' ∉ g) : splitSlash (joinSlash segs) = segs := by
  induction segs with
  | nil => exact absurd rfl hne
  | cons g gs ih =>
    cases gs with
    | nil => simpa [joinSlash] using splitSlash_of_noSlash g (h g (by simp))
    | cons g2 gs =>
      rw [joinSlash, splitSlash_append_slash _ _ (h g (by simp)),
        ih (by simp) (fun x hx => h x (List.mem_cons_of_mem _ hx))]

theorem cleanSegments_plain (rooted : Bool) (segs : List (List Char))
    (h : ∀ g ∈ segs, plainSegment g) :
    ∀ out, cleanSegments rooted out segs = out.reverse ++ segs := by
  induction segs with
  | nil => intro out; simp [cleanSegments]
  | cons g gs ih =>
    intro out
    obtain ⟨h1, -, h3, h4⟩ := h g (by simp)
    have hih := ih (fun x hx => h x (List.mem_cons_of_mem _ hx)) (g :: out)
    simp only [cleanSegments, h1, h3, h4, or_self, if_false, hih]
    simp

theorem joinSlash_snoc (segs : List (List Char)) (d : List Char) (hne : segs ≠ []) :
    joinSlash (segs ++ [d]) = joinSlash segs ++ '/' :: d := by
  induction segs with
  | nil => exact absurd rfl hne
  | cons g gs ih =>
    cases gs with
    | nil => simp [joinSlash]
    | cons g2 gs =>
      have := ih (by simp)
      simp only [List.cons_append] at this ⊢
      rw [joinSlash, this, joinSlash]
      simp

theorem joinSlash_head (segs : List (List Char)) (hne : segs ≠ [])
    (h : ∀ g ∈ segs, plainSegment g) :
    ∃ c rest, joinSlash segs = c :: rest ∧ c ≠ '/' := by
  cases segs with
  | nil => exact absurd rfl hne
  | cons g gs =>
    obtain ⟨h1, h2, -, -⟩ := h g (by simp)
    cases g with
    | nil => exact absurd rfl h1
    | cons c cs =>
      have hc : c ≠ '/' := fun e => h2 (by simp [e])
      cases gs with
      | nil => exact ⟨c, cs, by simp [joinSlash], hc⟩
      | cons g2 gs => exact ⟨c, cs ++ '/' :: joinSlash (g2 :: gs), by simp [joinSlash], hc⟩

theorem pathClean_mkPath (rooted : Bool) (segs : List (List Char)) (hne : segs ≠ [])
    (h : ∀ g ∈ segs, plainSegment g) :
    pathClean (mkPath rooted segs) = mkPath rooted segs := by
  have hslash : ∀ g ∈ segs, '/' ∉ g := fun g hg => (h g hg).2.1
  obtain ⟨c, rest, hj, hc⟩ := joinSlash_head segs hne h
  cases rooted with
  | true =>
    simp [pathClean, mkPath, splitSlash, splitSlash_joinSlash segs hne hslash, cleanSegments,
      cleanSegments_plain true segs h]
  | false =>
    have hhead : ¬ (joinSlash segs).head? = some '/' := by simp [hj, hc]
    have hpne : joinSlash segs ≠ [] := by simp [hj]
    simp [pathClean, mkPath, hhead, hpne, splitSlash_joinSlash segs hne hslash,
      cleanSegments_plain false segs h]

theorem pathJoin_pair (p d : List Char) (hp : p ≠ []) :
    pathJoin [p, d] = pathClean (p ++ '/' :: d) := by
  simp [pathJoin, hp]

theorem pathJoin_mkPath (rooted : Bool) (segs : List (List Char)) (d : List Char)
    (hne : segs ≠ []) (h : ∀ g ∈ segs, plainSegment g) (hd : plainSegment d) :
    pathJoin [mkPath rooted segs, d] = mkPath rooted segs ++ '/' :: d := by
  obtain ⟨c, rest, hj, -⟩ := joinSlash_head segs hne h
  have hp : mkPath rooted segs ≠ [] := by simp [mkPath, hj]
  have heq : mkPath rooted segs ++ '/' :: d = mkPath rooted (segs ++ [d]) := by
    simp [mkPath, joinSlash_snoc segs d hne]
  rw [pathJoin_pair _ _ hp, heq]
  apply pathClean_mkPath
  · simp
  · intro g hg
    rcases List.mem_append.mp hg with hg | hg
    · exact h g hg
    · have : g = d := by simpa using hg
      exact this ▸ hd

theorem digitChar_ok (n : Nat) (h : n < 10) : Nat.digitChar n ≠ '/' ∧ Nat.digitChar n ≠ '.' := by
  interval_cases n <;> decide

theorem toDigitsCore_ok (fuel : Nat) : ∀ (n : Nat) (ds : List Char),
    (∀ c ∈ ds, c ≠ '/' ∧ c ≠ '.') →
    ∀ c ∈ Nat.toDigitsCore 10 fuel n ds, c ≠ '/' ∧ c ≠ '.' := by
  induction fuel with
  | zero => intro n ds h; simpa [Nat.toDigitsCore] using h
  | succ f ih =>
    intro n ds h
    have hd := digitChar_ok (n % 10) (Nat.mod_lt _ (by decide))
    have hcons : ∀ c ∈ Nat.digitChar (n % 10) :: ds, c ≠ '/' ∧ c ≠ '.' := by
      intro c hc
      rcases List.mem_cons.mp hc with rfl | hc
      · exact hd
      · exact h c hc
    unfold Nat.toDigitsCore
    simp only []
    split
    · exact hcons
    · exact ih _ _ hcons

theorem toDigitsCore_ne_nil (fuel : Nat) : ∀ (n : Nat) (ds : List Char),
    (0 < fuel ∨ ds ≠ []) → Nat.toDigitsCore 10 fuel n ds ≠ [] := by
  induction fuel with
  | zero => intro n ds h; rcases h with h | h; · omega
            simpa [Nat.toDigitsCore] using h
  | succ f ih =>
    intro n ds _
    unfold Nat.toDigitsCore
    simp only []
    split
    · simp
    · exact ih _ _ (Or.inr (by simp))

theorem natRepr_ok (n : Nat) : (Nat.repr n).data ≠ [] ∧ ∀ c ∈ (Nat.repr n).data, c ≠ '/' ∧ c ≠ '.' := by
  unfold Nat.repr Nat.toDigits List.asString
  exact ⟨toDigitsCore_ne_nil _ _ _ (Or.inl (by omega)), toDigitsCore_ok _ _ _ (by simp)⟩

theorem intToString_ok (n : Int) : (toString n).data ≠ [] ∧ ∀ c ∈ (toString n).data, c ≠ '/' ∧ c ≠ '.' := by
  cases n with
  | ofNat m => exact natRepr_ok m
  | negSucc m =>
    show ("-" ++ Nat.repr (m+1)).data ≠ [] ∧ _
    have := natRepr_ok (m+1)
    simp only [String.data_append]
    refine ⟨by simp [this.1], ?_⟩
    intro c hc
    rcases List.mem_append.mp hc with hc | hc
    · have : c = '-' := by simpa using hc
      subst this; decide
    · exact this.2 c hc

theorem sprintfD_plain (n : Int) : plainSegment (sprintfD n).data := by
  obtain ⟨hne, hall⟩ := intToString_ok n
  refine ⟨hne, fun h => (hall _ h).1 rfl, ?_, ?_⟩
  · intro h
    have := hall '.' (by rw [show (toString n).data = ['.'] from h]; simp)
    exact this.2 rfl
  · intro h
    have := hall '.' (by rw [show (toString n).data = ['.', '.'] from h]; simp)
    exact this.2 rfl

/-! ## `StartJob` -/

/-- C8. `StartJob` either leaves the store's log as it was or appends exactly
one `Put`, of the serialized job under `pendingKey`; it touches nothing else.
It returns nil exactly when serialization and the write both succeed; when
the write fails it returns the write's error; when serialization fails it
returns that error and writes nothing. The key is
`path.Join(PendingPrefix, "<id in decimal>")`, and whenever `PendingPrefix` is
a clean path (plain elements joined by `'/'`, rooted or not) this is
`PendingPrefix`, then `'/'`, then the id in decimal. -/
theorem StartJob_puts_job_under_pending_key (PendingPrefix : String)
    (marshal : Job → Except Error String) (put : Except Error Unit) (job : Job) (s : Sys) :
    ((StartJob PendingPrefix marshal put job s).1.app.client = s.app.client ∨
      ∃ data, marshal job = .ok data ∧
        (StartJob PendingPrefix marshal put job s).1.app.client
          = s.app.client ++ [(pendingKey PendingPrefix job, data)]) ∧
    (StartJob PendingPrefix marshal put job s).1.w = s.w ∧
    (StartJob PendingPrefix marshal put job s).1.calls = s.calls ∧
    (StartJob PendingPrefix marshal put job s).1.app.workers = s.app.workers ∧
    (StartJob PendingPrefix marshal put job s).1.app.scheduler = s.app.scheduler ∧
    (StartJob PendingPrefix marshal put job s).1.app.ws = s.app.ws ∧
    ((StartJob PendingPrefix marshal put job s).2 = none
      ↔ (∃ data, marshal job = .ok data) ∧ put = .ok ()) ∧
    (∀ data, marshal job = .ok data →
      (StartJob PendingPrefix marshal put job s).1.app.client
        = s.app.client ++ [(pendingKey PendingPrefix job, data)]) ∧
    (∀ data err, marshal job = .ok data → put = .error err →
      (StartJob PendingPrefix marshal put job s).2 = some err) ∧
    (∀ err, marshal job = .error err →
      StartJob PendingPrefix marshal put job s = (s, some err)) ∧
    (∀ (rooted : Bool) (segs : List (List Char)), segs ≠ [] →
      (∀ g ∈ segs, plainSegment g) → PendingPrefix.data = mkPath rooted segs →
      pendingKey PendingPrefix job = PendingPrefix ++ "/" ++ sprintfD job.id) := by
  have hkey : ∀ (rooted : Bool) (segs : List (List Char)), segs ≠ [] →
      (∀ g ∈ segs, plainSegment g) → PendingPrefix.data = mkPath rooted segs →
      pendingKey PendingPrefix job = PendingPrefix ++ "/" ++ sprintfD job.id := by
    intro rooted segs hne hplain hdata
    apply String.ext
    simp only [pendingKey, String.data_append]
    rw [hdata, pathJoin_mkPath rooted segs _ hne hplain (sprintfD_plain job.id)]
    simp
  unfold StartJob
  cases hm : marshal job with
  | error e =>
    refine ⟨Or.inl rfl, rfl, rfl, rfl, rfl, rfl, ?_, ?_, ?_, ?_, hkey⟩
    · simp
    · intro data h; cases h
    · intro data err h; cases h
    · intro err h; cases h; rfl
  | ok data =>
    cases hp : put with
    | error e =>
      refine ⟨Or.inr ⟨data, rfl, rfl⟩, rfl, rfl, rfl, rfl, rfl, ?_, ?_, ?_, ?_, hkey⟩
      · simp
      · intro d h; cases h; rfl
      · intro d err h h2; cases h; cases h2; rfl
      · intro err h; cases h
    | ok u =>
      refine ⟨Or.inr ⟨data, rfl, rfl⟩, rfl, rfl, rfl, rfl, rfl, ?_, ?_, ?_, ?_, hkey⟩
      · simp
      · intro d h; cases h; rfl
      · intro d err h h2; cases h2
      · intro err h; cases h

/-- Instance of C8: with the prefix `pending`, job 42 is written under
`pending/42`. -/
theorem StartJob_puts_job_under_pending_key_witness :
    (StartJob "pending" (fun _ => .ok "\x7b\"id\":42\x7d") (.ok ()) exampleJob exampleSys).1.app.client
      = [("pending/42", "\x7b\"id\":42\x7d")] ∧
    "pending".data = mkPath false ["pending".data] ∧
    pendingKey "pending" exampleJob = "pending" ++ "/" ++ sprintfD 42 := by
  have h := StartJob_puts_job_under_pending_key "pending" (fun _ => .ok "\x7b\"id\":42\x7d")
    (.ok ()) exampleJob exampleSys
  refine ⟨?_, rfl, ?_⟩
  · have h8 := h.2.2.2.2.2.2.2.1 "\x7b\"id\":42\x7d" rfl
    rw [h8, h.2.2.2.2.2.2.2.2.2.2 false ["pending".data] (by simp)
      (by intro g hg; simp only [List.mem_singleton] at hg; subst hg; decide) rfl]
    decide
  · exact h.2.2.2.2.2.2.2.2.2.2 false ["pending".data] (by simp)
      (by intro g hg; simp only [List.mem_singleton] at hg; subst hg; decide) rfl

/-! ## `TriggerBuild` -/

theorem TriggerBuild_unauthorized {R : Type} (GetUserIDFromJWT : String → Except Error Int)
    (decode : String → Except Error triggerForm) (service : Int → Int → R) (req : Request)
    (err : Error) (ha : GetUserIDFromJWT req.authorization = .error err) :
    TriggerBuild GetUserIDFromJWT decode service req = ⟨[(401, .error err)], [], false⟩ := by
  simp only [TriggerBuild, ha]
  rfl

theorem TriggerBuild_bad_body {R : Type} (GetUserIDFromJWT : String → Except Error Int)
    (decode : String → Except Error triggerForm) (service : Int → Int → R) (req : Request)
    (userID : Int) (err : Error) (ha : GetUserIDFromJWT req.authorization = .ok userID)
    (hd : decode req.body = .error err) :
    TriggerBuild GetUserIDFromJWT decode service req = ⟨[(500, .error err)], [], false⟩ := by
  simp only [TriggerBuild, ha, hd]
  rfl

theorem TriggerBuild_bad_id {R : Type} (GetUserIDFromJWT : String → Except Error Int)
    (decode : String → Except Error triggerForm) (service : Int → Int → R) (req : Request)
    (userID : Int) (form : triggerForm) (err : Error)
    (ha : GetUserIDFromJWT req.authorization = .ok userID)
    (hd : decode req.body = .ok form) (hi : Atoi form.ID = .error err) :
    TriggerBuild GetUserIDFromJWT decode service req = ⟨[(500, .error err)], [], true⟩ := by
  simp only [TriggerBuild, ha, hd, hi]
  rfl

theorem TriggerBuild_ok {R : Type} (GetUserIDFromJWT : String → Except Error Int)
    (decode : String → Except Error triggerForm) (service : Int → Int → R) (req : Request)
    (userID : Int) (form : triggerForm) (repoID : Int)
    (ha : GetUserIDFromJWT req.authorization = .ok userID)
    (hd : decode req.body = .ok form) (hi : Atoi form.ID = .ok repoID) :
    TriggerBuild GetUserIDFromJWT decode service req
      = ⟨[(200, .data (service (toUint64 repoID) (toUint64 userID)))],
         [(toUint64 repoID, toUint64 userID)], true⟩ := by
  simp only [TriggerBuild, ha, hd, hi]
  rfl

/-- C10. `TriggerBuild` answers exactly once and calls the build service at
most once, and any call it makes is with the repo id that `Atoi` read from
the decoded body's `id` and the user id that `GetUserIDFromJWT` read from the
`Authorization` header (both converted to `uint`). If the token helper fails
the answer is 401 with its error and the service is not called; if the body
does not decode, or `Atoi` rejects the `id`, the answer is 500 with that
error and the service is not called; otherwise the answer is 200 with the
service's result. -/
theorem TriggerBuild_calls_service_at_most_once {R : Type}
    (GetUserIDFromJWT : String → Except Error Int)
    (decode : String → Except Error triggerForm) (service : Int → Int → R) (req : Request) :
    (TriggerBuild GetUserIDFromJWT decode service req).calls.length ≤ 1 ∧
    (TriggerBuild GetUserIDFromJWT decode service req).responses.length = 1 ∧
    (∀ call ∈ (TriggerBuild GetUserIDFromJWT decode service req).calls,
      ∃ userID form repoID,
        GetUserIDFromJWT req.authorization = .ok userID ∧ decode req.body = .ok form ∧
        Atoi form.ID = .ok repoID ∧ call = (toUint64 repoID, toUint64 userID)) ∧
    (∀ err, GetUserIDFromJWT req.authorization = .error err →
      (TriggerBuild GetUserIDFromJWT decode service req).responses = [(401, .error err)] ∧
      (TriggerBuild GetUserIDFromJWT decode service req).calls = []) ∧
    (∀ userID err, GetUserIDFromJWT req.authorization = .ok userID →
      decode req.body = .error err →
      (TriggerBuild GetUserIDFromJWT decode service req).responses = [(500, .error err)] ∧
      (TriggerBuild GetUserIDFromJWT decode service req).calls = []) ∧
    (∀ userID form err, GetUserIDFromJWT req.authorization = .ok userID →
      decode req.body = .ok form → Atoi form.ID = .error err →
      (TriggerBuild GetUserIDFromJWT decode service req).responses = [(500, .error err)] ∧
      (TriggerBuild GetUserIDFromJWT decode service req).calls = []) ∧
    (∀ userID form repoID, GetUserIDFromJWT req.authorization = .ok userID →
      decode req.body = .ok form → Atoi form.ID = .ok repoID →
      (TriggerBuild GetUserIDFromJWT decode service req).responses
        = [(200, .data (service (toUint64 repoID) (toUint64 userID)))] ∧
      (TriggerBuild GetUserIDFromJWT decode service req).calls
        = [(toUint64 repoID, toUint64 userID)]) := by
  cases ha : GetUserIDFromJWT req.authorization with
  | error e =>
    rw [TriggerBuild_unauthorized _ _ _ _ e ha]
    refine ⟨by simp, rfl, by simp, ?_, ?_, ?_, ?_⟩
    · intro err h; cases h; exact ⟨rfl, rfl⟩
    · intro u err h; cases h
    · intro u f err h; cases h
    · intro u f r h; cases h
  | ok userID =>
    cases hd : decode req.body with
    | error e =>
      rw [TriggerBuild_bad_body _ _ _ _ userID e ha hd]
      refine ⟨by simp, rfl, by simp, ?_, ?_, ?_, ?_⟩
      · intro err h; cases h
      · intro u err _ h; cases h; exact ⟨rfl, rfl⟩
      · intro u f err _ h; cases h
      · intro u f r _ h; cases h
    | ok form =>
      cases hi : Atoi form.ID with
      | error e =>
        rw [TriggerBuild_bad_id _ _ _ _ userID form e ha hd hi]
        refine ⟨by simp, rfl, by simp, ?_, ?_, ?_, ?_⟩
        · intro err h; cases h
        · intro u err _ h; cases h
        · intro u f err _ h h2; cases h; rw [hi] at h2; cases h2; exact ⟨rfl, rfl⟩
        · intro u f r _ h h2; cases h; rw [hi] at h2; cases h2
      | ok repoID =>
        rw [TriggerBuild_ok _ _ _ _ userID form repoID ha hd hi]
        refine ⟨by simp, rfl, ?_, ?_, ?_, ?_, ?_⟩
        · intro call hc
          simp only [List.mem_singleton] at hc
          exact ⟨userID, form, repoID, rfl, rfl, hi, hc⟩
        · intro err h; cases h
        · intro u err _ h; cases h
        · intro u f err _ h h2; cases h; rw [hi] at h2; cases h2
        · intro u f r h1 h h2; cases h1; cases h; rw [hi] at h2; cases h2; exact ⟨rfl, rfl⟩

/-- Instance of C10: a good token and the body `{"id":"15"}`. -/
theorem TriggerBuild_calls_service_at_most_once_witness :
    exampleAuth "Bearer good" = .ok 3 ∧
    exampleDecode "\x7b\"id\":\"15\"\x7d" = .ok ⟨"15"⟩ ∧
    Atoi "15" = .ok 15 ∧
    (TriggerBuild exampleAuth exampleDecode (fun r u => r + u)
        ⟨"Bearer good", "\x7b\"id\":\"15\"\x7d"⟩).responses
      = [(200, .data (toUint64 15 + toUint64 3))] :=
  ⟨rfl, rfl, rfl,
   ((TriggerBuild_calls_service_at_most_once exampleAuth exampleDecode (fun r u => r + u)
      ⟨"Bearer good", "\x7b\"id\":\"15\"\x7d"⟩).2.2.2.2.2.2 3 ⟨"15"⟩ 15 rfl rfl rfl).1⟩

/-! ## `ReposList` -/

/-- The loop appends one converted record for each listed repository, in
order. -/
theorem foldl_reposStep (l : List ScmRepository) :
    ∀ acc : List Repository,
      l.foldl reposStep acc = acc ++ l.map (fun repo =>
        ({ id := repo.id, Namespace := repo.Namespace, name := repo.name,
           permission := ⟨repo.perm.pull, repo.perm.push, repo.perm.admin⟩,
           branch := repo.branch, isPrivate := repo.isPrivate, clone := repo.clone,
           cloneSSH := repo.cloneSSH, link := repo.link, created := repo.created,
           updated := repo.updated } : Repository)) := by
  induction l with
  | nil => intro acc; simp
  | cons repo rest ih =>
    intro acc
    rw [List.foldl_cons, ih]
    simp [reposStep]

theorem ReposList_find_error (find : Nat → Nat → Except Error Provider)
    (NewSCM : String → String → String → Except Error ScmClient)
    (ProviderID UserID : Nat) (page size : Int) (err : Error)
    (hf : find ProviderID UserID = .error err) :
    ReposList find NewSCM ProviderID UserID page size
      = ([], some err, [.find ProviderID UserID]) := by
  simp only [ReposList, hf]

theorem ReposList_newSCM_error (find : Nat → Nat → Except Error Provider)
    (NewSCM : String → String → String → Except Error ScmClient)
    (ProviderID UserID : Nat) (page size : Int) (provider : Provider) (err : Error)
    (hf : find ProviderID UserID = .ok provider)
    (hn : NewSCM provider.name provider.url provider.accessToken = .error err) :
    ReposList find NewSCM ProviderID UserID page size
      = ([], some err,
          [.find ProviderID UserID,
           .newSCM provider.name provider.url provider.accessToken]) := by
  simp only [ReposList, hf, hn]

theorem ReposList_listRepos_error (find : Nat → Nat → Except Error Provider)
    (NewSCM : String → String → String → Except Error ScmClient)
    (ProviderID UserID : Nat) (page size : Int) (provider : Provider) (scm : ScmClient)
    (err : Error) (hf : find ProviderID UserID = .ok provider)
    (hn : NewSCM provider.name provider.url provider.accessToken = .ok scm)
    (hl : scm page size = .error err) :
    ReposList find NewSCM ProviderID UserID page size
      = ([], some err,
          [.find ProviderID UserID,
           .newSCM provider.name provider.url provider.accessToken,
           .listRepos page size]) := by
  simp only [ReposList, hf, hn, hl]

theorem ReposList_ok (find : Nat → Nat → Except Error Provider)
    (NewSCM : String → String → String → Except Error ScmClient)
    (ProviderID UserID : Nat) (page size : Int) (provider : Provider) (scm : ScmClient)
    (repositories : List ScmRepository) (hf : find ProviderID UserID = .ok provider)
    (hn : NewSCM provider.name provider.url provider.accessToken = .ok scm)
    (hl : scm page size = .ok repositories) :
    ReposList find NewSCM ProviderID UserID page size
      = (repositories.foldl reposStep [], none,
          [.find ProviderID UserID,
           .newSCM provider.name provider.url provider.accessToken,
           .listRepos page size]) := by
  simp only [ReposList, hf, hn, hl]

/-- C11. When `Find`, `NewSCM` and `ListRepos` all succeed, `ReposList`
returns a nil error and a list of the same length as the SCM client's, whose
i-th element copies every field of the client's i-th repository (id,
namespace, name, pull/push/admin permission, branch, private, clone,
clone_ssh, link, created, updated), after performing the three steps once each
in that order. When a step fails, the result is the empty list with that
step's error, and no later step is performed. -/
theorem ReposList_copies_scm_repos (find : Nat → Nat → Except Error Provider)
    (NewSCM : String → String → String → Except Error ScmClient)
    (ProviderID UserID : Nat) (page size : Int) :
    (∀ provider scm repositories,
      find ProviderID UserID = .ok provider →
      NewSCM provider.name provider.url provider.accessToken = .ok scm →
      scm page size = .ok repositories →
      (ReposList find NewSCM ProviderID UserID page size).2.1 = none ∧
      (ReposList find NewSCM ProviderID UserID page size).1.length = repositories.length ∧
      (∀ (i : Nat) (repo : ScmRepository), repositories[i]? = some repo →
        ∃ r : Repository,
          (ReposList find NewSCM ProviderID UserID page size).1[i]? = some r ∧
          r.id = repo.id ∧ r.Namespace = repo.Namespace ∧ r.name = repo.name ∧
          r.permission.pull = repo.perm.pull ∧ r.permission.push = repo.perm.push ∧
          r.permission.admin = repo.perm.admin ∧ r.branch = repo.branch ∧
          r.isPrivate = repo.isPrivate ∧ r.clone = repo.clone ∧
          r.cloneSSH = repo.cloneSSH ∧ r.link = repo.link ∧
          r.created = repo.created ∧ r.updated = repo.updated) ∧
      (ReposList find NewSCM ProviderID UserID page size).2.2
        = [.find ProviderID UserID,
           .newSCM provider.name provider.url provider.accessToken,
           .listRepos page size]) ∧
    (∀ err, find ProviderID UserID = .error err →
      ReposList find NewSCM ProviderID UserID page size
        = ([], some err, [.find ProviderID UserID])) ∧
    (∀ provider err, find ProviderID UserID = .ok provider →
      NewSCM provider.name provider.url provider.accessToken = .error err →
      ReposList find NewSCM ProviderID UserID page size
        = ([], some err,
            [.find ProviderID UserID,
             .newSCM provider.name provider.url provider.accessToken])) ∧
    (∀ provider scm err, find ProviderID UserID = .ok provider →
      NewSCM provider.name provider.url provider.accessToken = .ok scm →
      scm page size = .error err →
      ReposList find NewSCM ProviderID UserID page size
        = ([], some err,
            [.find ProviderID UserID,
             .newSCM provider.name provider.url provider.accessToken,
             .listRepos page size])) := by
  refine ⟨?_, ?_, ?_, ?_⟩
  · intro provider scm repositories hf hn hl
    rw [ReposList_ok find NewSCM ProviderID UserID page size provider scm repositories hf hn hl]
    refine ⟨rfl, ?_, ?_, rfl⟩
    · simp [foldl_reposStep]
    · intro i repo hi
      refine ⟨{ id := repo.id, Namespace := repo.Namespace, name := repo.name,
                permission := ⟨repo.perm.pull, repo.perm.push, repo.perm.admin⟩,
                branch := repo.branch, isPrivate := repo.isPrivate, clone := repo.clone,
                cloneSSH := repo.cloneSSH, link := repo.link, created := repo.created,
                updated := repo.updated },
        ?_, rfl, rfl, rfl, rfl, rfl, rfl, rfl, rfl, rfl, rfl, rfl, rfl, rfl⟩
      simp only [foldl_reposStep, List.nil_append, List.getElem?_map, hi, Option.map_some']
  · intro err hf
    exact ReposList_find_error find NewSCM ProviderID UserID page size err hf
  · intro provider err hf hn
    exact ReposList_newSCM_error find NewSCM ProviderID UserID page size provider err hf hn
  · intro provider scm err hf hn hl
    exact ReposList_listRepos_error find NewSCM ProviderID UserID page size provider scm err
      hf hn hl

/-- Instance of C11: two repositories listed for provider 1 of user 3. -/
theorem ReposList_copies_scm_repos_witness :
    exampleFind 1 3 = .ok ⟨"github", "https://api.github.com", "tok"⟩ ∧
    exampleNewSCM "github" "https://api.github.com" "tok" = .ok (fun _ _ => .ok exampleRepos) ∧
    (ReposList exampleFind exampleNewSCM 1 3 1 30).2.1 = none ∧
    (ReposList exampleFind exampleNewSCM 1 3 1 30).1.length = exampleRepos.length :=
  ⟨rfl, rfl,
   ((ReposList_copies_scm_repos exampleFind exampleNewSCM 1 3 1 30).1
      ⟨"github", "https://api.github.com", "tok"⟩ (fun _ _ => .ok exampleRepos) exampleRepos
      rfl rfl rfl).1,
   ((ReposList_copies_scm_repos exampleFind exampleNewSCM 1 3 1 30).1
      ⟨"github", "https://api.github.com", "tok"⟩ (fun _ _ => .ok exampleRepos) exampleRepos
      rfl rfl rfl).2.1⟩

end Abstruse
